import Mathlib

/-! # Croissant game model

A shallow embedding of the game engine in `src/game_model.rs` of the
croissant-bench repository.  Rust `i32` values are modelled as `Int` and
`u32` quantities as `Nat`; the state-mutating methods become pure
functions returning the action result together with the updated state
(the Rust methods return early with the state untouched on every
validation failure, which the pair-returning functions reproduce). -/

inductive InvalidActionErrorCause where
  | InvalidAction
  | InvalidQuantity
  | ExtraneousQuantity
  | GameOver
  | NotEnoughMoney (total_cost : Int)
  | CheeseMaxQuantityExceeded (max : Nat)
  | NoCheeseToSell
  | CroissantMaxQuantityExceeded (max : Nat)
  deriving DecidableEq

structure InvalidActionError where
  cause : InvalidActionErrorCause
  deriving DecidableEq

abbrev ActionResult (T : Type) := Except InvalidActionError T

instance : DecidableEq (ActionResult Unit) := fun a b =>
  match a, b with
  | .ok (), .ok () => isTrue rfl
  | .error e1, .error e2 =>
    if h : e1 = e2 then isTrue (by rw [h]) else isFalse (fun hc => h (by injection hc))
  | .ok _, .error _ => isFalse (fun hc => Except.noConfusion hc)
  | .error _, .ok _ => isFalse (fun hc => Except.noConfusion hc)

/-- Left-pad a string with zero characters up to width `w`. -/
def pad_zeros (w : Nat) (s : String) : String :=
  String.mk (List.replicate (w - s.length) '0') ++ s

/-- Rust sign-aware zero padding `\x7b:02\x7d`: a negative number keeps its
sign and pads its digit part to the remaining width. -/
def rust_zero_pad2 (n : Int) : String :=
  if n < 0 then "-" ++ pad_zeros 1 (toString (-n)) else pad_zeros 2 (toString n)

/-- `format_money` from src/game_model.rs, with Rust truncating division
and remainder (`Int.tdiv` / `Int.tmod` are the truncating pair). -/
def format_money (raw_money : Int) : String :=
  "$" ++ toString (Int.tdiv raw_money 100) ++ "." ++ rust_zero_pad2 (Int.tmod raw_money 100)

structure CroissantGameConfig where
  turns : Int
  starting_money : Int
  cook_payoff : Int
  cheese_cost : Int
  cheese_quantity_maximum : Nat
  cheese_mature_turns : Int
  cheese_payoff : Int
  recipe_cost : Int
  recipe_dividend : Int
  cookbook_cost : Int
  cookbook_dividend : Int
  croissant_starting_price : Int
  croissant_quantity_maximum : Nat
  croissant_price_fall : Int
  croissant_price_rise : Int
  croissant_minimum_price : Int
  deriving DecidableEq

structure CroissantGame where
  config : CroissantGameConfig
  turn : Int
  money : Int
  cheeses : List Int
  recipes : Int
  cookbooks : Int
  croissant_price : Int
  croissants : Int
  deriving DecidableEq

def CroissantGame.new (config : CroissantGameConfig) : CroissantGame :=
  { config := config
    turn := 1
    money := config.starting_money
    cheeses := []
    recipes := 0
    cookbooks := 0
    croissant_price := config.croissant_starting_price
    croissants := 0 }

def CroissantGame.is_game_over (g : CroissantGame) : Bool :=
  g.turn > g.config.turns

/-- Returns (mature cheeses, non-mature cheeses). -/
def CroissantGame.count_cheeses (g : CroissantGame) : Int × Int :=
  g.cheeses.foldl
    (fun acc cheese_age =>
      if cheese_age ≥ g.config.cheese_mature_turns then (acc.1 + 1, acc.2) else (acc.1, acc.2 + 1))
    (0, 0)

def CroissantGame.end_turn (g : CroissantGame) : CroissantGame :=
  { g with
    turn := g.turn + 1
    cheeses := g.cheeses.map (fun age => age + 1)
    money := g.money + g.config.recipe_dividend * g.recipes + g.config.cookbook_dividend * g.cookbooks }

def CroissantGame.execute_cook (g : CroissantGame) : ActionResult Unit × CroissantGame :=
  if g.is_game_over then (Except.error ⟨.GameOver⟩, g)
  else (Except.ok (), CroissantGame.end_turn { g with money := g.money + g.config.cook_payoff })

def CroissantGame.execute_buy_cheese (g : CroissantGame) (quantity : Nat) :
    ActionResult Unit × CroissantGame :=
  if g.is_game_over then (Except.error ⟨.GameOver⟩, g)
  else if quantity = 0 then (Except.error ⟨.InvalidQuantity⟩, g)
  else if quantity > g.config.cheese_quantity_maximum then
    (Except.error ⟨.CheeseMaxQuantityExceeded g.config.cheese_quantity_maximum⟩, g)
  else
    let total_cost := g.config.cheese_cost * (quantity : Int)
    if total_cost > g.money then (Except.error ⟨.NotEnoughMoney total_cost⟩, g)
    else
      (Except.ok (), CroissantGame.end_turn
        { g with money := g.money - total_cost
                 cheeses := g.cheeses ++ List.replicate quantity 0 })

def CroissantGame.execute_sell_cheese (g : CroissantGame) : ActionResult Unit × CroissantGame :=
  if g.is_game_over then (Except.error ⟨.GameOver⟩, g)
  else
    let mature_cheeses := g.count_cheeses.1
    if mature_cheeses = 0 then (Except.error ⟨.NoCheeseToSell⟩, g)
    else
      let total_gain := mature_cheeses * g.config.cheese_payoff
      (Except.ok (), CroissantGame.end_turn
        { g with money := g.money + total_gain
                 cheeses := g.cheeses.filter (fun age => age < g.config.cheese_mature_turns) })

def CroissantGame.execute_publish_recipe (g : CroissantGame) : ActionResult Unit × CroissantGame :=
  if g.is_game_over then (Except.error ⟨.GameOver⟩, g)
  else if g.config.recipe_cost > g.money then
    (Except.error ⟨.NotEnoughMoney g.config.recipe_cost⟩, g)
  else
    (Except.ok (), CroissantGame.end_turn
      { g with money := g.money - g.config.recipe_cost
               recipes := g.recipes + 1 })

def CroissantGame.execute_publish_cookbook (g : CroissantGame) : ActionResult Unit × CroissantGame :=
  if g.is_game_over then (Except.error ⟨.GameOver⟩, g)
  else if g.config.cookbook_cost > g.money then
    (Except.error ⟨.NotEnoughMoney g.config.cookbook_cost⟩, g)
  else
    (Except.ok (), CroissantGame.end_turn
      { g with money := g.money - g.config.cookbook_cost
               cookbooks := g.cookbooks + 1 })

def CroissantGame.execute_buy_croissants (g : CroissantGame) (quantity : Nat) :
    ActionResult Unit × CroissantGame :=
  if g.is_game_over then (Except.error ⟨.GameOver⟩, g)
  else if quantity = 0 then (Except.error ⟨.InvalidQuantity⟩, g)
  else if quantity > g.config.croissant_quantity_maximum then
    (Except.error ⟨.CroissantMaxQuantityExceeded g.config.croissant_quantity_maximum⟩, g)
  else
    let total_cost := g.croissant_price * (quantity : Int)
    if total_cost > g.money then (Except.error ⟨.NotEnoughMoney total_cost⟩, g)
    else
      (Except.ok (), CroissantGame.end_turn
        { g with money := g.money - total_cost
                 croissants := g.croissants + (quantity : Int) })

/-- One player action, as dispatched by the driving loop in src/main.rs. -/
inductive GameAction where
  | cook
  | buy_cheese (quantity : Nat)
  | sell_cheese
  | publish_recipe
  | publish_cookbook
  | buy_croissants (quantity : Nat)
  deriving DecidableEq

def CroissantGame.apply_action (g : CroissantGame) : GameAction → ActionResult Unit × CroissantGame
  | .cook => g.execute_cook
  | .buy_cheese q => g.execute_buy_cheese q
  | .sell_cheese => g.execute_sell_cheese
  | .publish_recipe => g.execute_publish_recipe
  | .publish_cookbook => g.execute_publish_cookbook
  | .buy_croissants q => g.execute_buy_croissants q

/-- The state after an action call (accepted or rejected). -/
def CroissantGame.step (g : CroissantGame) (a : GameAction) : CroissantGame :=
  (g.apply_action a).2

/-- The state after a whole sequence of action calls. -/
def CroissantGame.run (g : CroissantGame) (acts : List GameAction) : CroissantGame :=
  acts.foldl CroissantGame.step g

/-! ## Concrete configurations and states used by witnesses and counterexamples -/

/-- A small test configuration: recipe cost 200 with dividend 10, starting
money 200, free cheese with maturation threshold 1. -/
def cfgRecipe : CroissantGameConfig :=
  { turns := 10, starting_money := 200, cook_payoff := 0, cheese_cost := 0,
    cheese_quantity_maximum := 5, cheese_mature_turns := 1, cheese_payoff := 0,
    recipe_cost := 200, recipe_dividend := 10, cookbook_cost := 100, cookbook_dividend := 0,
    croissant_starting_price := 2, croissant_quantity_maximum := 5,
    croissant_price_fall := 1, croissant_price_rise := 1, croissant_minimum_price := 1 }

/-- A configuration whose turn limit is 0, so a fresh game is already over. -/
def cfgZeroTurns : CroissantGameConfig :=
  { turns := 0, starting_money := 100, cook_payoff := 1, cheese_cost := 1,
    cheese_quantity_maximum := 5, cheese_mature_turns := 3, cheese_payoff := 4,
    recipe_cost := 2, recipe_dividend := 1, cookbook_cost := 3, cookbook_dividend := 2,
    croissant_starting_price := 2, croissant_quantity_maximum := 5,
    croissant_price_fall := 1, croissant_price_rise := 1, croissant_minimum_price := 1 }

/-- A mid-game state owning one mature cheese (age 2 with threshold 1)
and one fresh cheese. -/
def gCheese : CroissantGame :=
  { config := cfgRecipe, turn := 1, money := 0, cheeses := [2, 0],
    recipes := 0, cookbooks := 0, croissant_price := 2, croissants := 0 }

/-! ## Helper lemmas -/

theorem count_cheeses_foldl (t : Int) (l : List Int) (p : Int × Int) :
    l.foldl (fun acc cheese_age =>
        if cheese_age ≥ t then (acc.1 + 1, acc.2) else (acc.1, acc.2 + 1)) p
      = (p.1 + (l.countP (fun age => t ≤ age) : Int),
         p.2 + (l.countP (fun age => age < t) : Int)) := by
  induction l generalizing p with
  | nil => simp
  | cons x xs ih =>
    rw [List.foldl_cons, ih]
    by_cases h : t ≤ x
    · simp [List.countP_cons, h, not_lt.mpr h]
      ring
    · simp [List.countP_cons, h, not_le.mp h]
      ring

theorem count_cheeses_eq (g : CroissantGame) :
    g.count_cheeses =
      ((g.cheeses.countP (fun age => g.config.cheese_mature_turns ≤ age) : Int),
       (g.cheeses.countP (fun age => age < g.config.cheese_mature_turns) : Int)) := by
  unfold CroissantGame.count_cheeses
  rw [count_cheeses_foldl]
  simp

theorem mature_count_eq_zero_iff (g : CroissantGame) :
    g.count_cheeses.1 = 0 ↔ ∀ age ∈ g.cheeses, age < g.config.cheese_mature_turns := by
  rw [count_cheeses_eq]
  simp [List.countP_eq_zero]

theorem reject_frame (g : CroissantGame) (a : GameAction) (e : InvalidActionError)
    (h : (g.apply_action a).1 = Except.error e) : (g.apply_action a).2 = g := by
  cases a <;>
    simp only [CroissantGame.apply_action, CroissantGame.execute_cook,
      CroissantGame.execute_buy_cheese, CroissantGame.execute_sell_cheese,
      CroissantGame.execute_publish_recipe, CroissantGame.execute_publish_cookbook,
      CroissantGame.execute_buy_croissants] at h ⊢ <;>
    split_ifs at h ⊢ <;> simp_all

/-! ## Claim theorems -/

/-- C6: every action operation is atomic: whenever any of the six action
operations returns a rejection, the whole game state — and hence every
field (turn, money, cheeses, recipes, cookbooks, croissant_price,
croissants) — is unchanged from before the call. -/
theorem rejected_action_state_unchanged (g : CroissantGame) (a : GameAction)
    (e : InvalidActionError) (h : (g.apply_action a).1 = Except.error e) :
    (g.apply_action a).2 = g :=
  reject_frame g a e h

theorem rejected_action_state_unchanged_witness :
    ((CroissantGame.new cfgZeroTurns).apply_action .cook).2 = CroissantGame.new cfgZeroTurns :=
  rejected_action_state_unchanged (CroissantGame.new cfgZeroTurns) .cook
    ⟨.GameOver⟩ (by decide)

/-- C2: `is_game_over` holds iff the turn counter exceeds the configured
turn limit; while it holds every action operation returns the `GameOver`
rejection with the state unchanged, the game-over state is preserved by
every further call, and the game-over state can only be entered by an
accepted action. -/
theorem game_over_terminal (g : CroissantGame) (a : GameAction) :
    (g.is_game_over = true ↔ g.config.turns < g.turn)
    ∧ (g.is_game_over = true → g.apply_action a = (Except.error ⟨.GameOver⟩, g))
    ∧ (g.is_game_over = true → (g.step a).is_game_over = true)
    ∧ (g.is_game_over = false → (g.step a).is_game_over = true →
        (g.apply_action a).1 = Except.ok ()) := by
  have hiff : g.is_game_over = true ↔ g.config.turns < g.turn := by
    simp [CroissantGame.is_game_over]
  have hreject : g.is_game_over = true → g.apply_action a = (Except.error ⟨.GameOver⟩, g) := by
    intro h
    cases a <;>
      simp [CroissantGame.apply_action, CroissantGame.execute_cook,
        CroissantGame.execute_buy_cheese, CroissantGame.execute_sell_cheese,
        CroissantGame.execute_publish_recipe, CroissantGame.execute_publish_cookbook,
        CroissantGame.execute_buy_croissants, h]
  refine ⟨hiff, hreject, ?_, ?_⟩
  · intro h
    have := hreject h
    simp only [CroissantGame.step, this]
    exact h
  · intro hno hafter
    cases hres : (g.apply_action a).1 with
    | ok u => cases u; rfl
    | error e =>
      exfalso
      have hframe := reject_frame g a e hres
      rw [CroissantGame.step, hframe] at hafter
      rw [hno] at hafter
      exact Bool.false_ne_true hafter

theorem game_over_terminal_witness :
    (CroissantGame.new cfgZeroTurns).apply_action .sell_cheese =
      (Except.error ⟨.GameOver⟩, CroissantGame.new cfgZeroTurns) :=
  (game_over_terminal (CroissantGame.new cfgZeroTurns) .sell_cheese).2.1 (by decide)

/-- All numeric configuration fields are non-negative (the `Nat`-valued
quantity caps are non-negative by type). -/
def CroissantGameConfig.NonNeg (c : CroissantGameConfig) : Prop :=
  0 ≤ c.turns ∧ 0 ≤ c.starting_money ∧ 0 ≤ c.cook_payoff ∧ 0 ≤ c.cheese_cost ∧
  0 ≤ c.cheese_mature_turns ∧ 0 ≤ c.cheese_payoff ∧ 0 ≤ c.recipe_cost ∧
  0 ≤ c.recipe_dividend ∧ 0 ≤ c.cookbook_cost ∧ 0 ≤ c.cookbook_dividend ∧
  0 ≤ c.croissant_starting_price ∧ 0 ≤ c.croissant_price_fall ∧
  0 ≤ c.croissant_price_rise ∧ 0 ≤ c.croissant_minimum_price

instance (c : CroissantGameConfig) : Decidable c.NonNeg := by
  unfold CroissantGameConfig.NonNeg
  infer_instance

theorem count_cheeses_nonneg (g : CroissantGame) :
    0 ≤ g.count_cheeses.1 ∧ 0 ≤ g.count_cheeses.2 := by
  rw [count_cheeses_eq]
  exact ⟨Int.natCast_nonneg _, Int.natCast_nonneg _⟩

/-- The inductive invariant behind the money bound. -/
def MoneyInv (g : CroissantGame) : Prop :=
  g.config.NonNeg ∧ 0 ≤ g.money ∧ 0 ≤ g.recipes ∧ 0 ≤ g.cookbooks

theorem end_turn_money_inv (g : CroissantGame) (hg : MoneyInv g) :
    MoneyInv g.end_turn := by
  obtain ⟨hcfg, hm, hr, hc⟩ := hg
  have hrd : 0 ≤ g.config.recipe_dividend := hcfg.2.2.2.2.2.2.2.1
  have hcd : 0 ≤ g.config.cookbook_dividend := hcfg.2.2.2.2.2.2.2.2.2.1
  exact ⟨hcfg, add_nonneg (add_nonneg hm (mul_nonneg hrd hr)) (mul_nonneg hcd hc), hr, hc⟩

theorem step_money_inv (g : CroissantGame) (a : GameAction) (hg : MoneyInv g) :
    MoneyInv (g.step a) := by
  obtain ⟨hcfg, hm, hr, hc⟩ := hg
  cases a with
  | cook =>
    simp only [CroissantGame.step, CroissantGame.apply_action, CroissantGame.execute_cook]
    split_ifs with hgo
    · exact ⟨hcfg, hm, hr, hc⟩
    · exact end_turn_money_inv _ ⟨hcfg, add_nonneg hm hcfg.2.2.1, hr, hc⟩
  | buy_cheese q =>
    simp only [CroissantGame.step, CroissantGame.apply_action,
      CroissantGame.execute_buy_cheese]
    split_ifs with hgo hq hcap hcost
    · exact ⟨hcfg, hm, hr, hc⟩
    · exact ⟨hcfg, hm, hr, hc⟩
    · exact ⟨hcfg, hm, hr, hc⟩
    · exact ⟨hcfg, hm, hr, hc⟩
    · refine end_turn_money_inv _ ⟨hcfg, ?_, hr, hc⟩
      simp only [not_lt] at hcost
      dsimp only
      omega
  | sell_cheese =>
    simp only [CroissantGame.step, CroissantGame.apply_action,
      CroissantGame.execute_sell_cheese]
    split_ifs with hgo hmat
    · exact ⟨hcfg, hm, hr, hc⟩
    · exact ⟨hcfg, hm, hr, hc⟩
    · refine end_turn_money_inv _ ⟨hcfg, ?_, hr, hc⟩
      have hpay : 0 ≤ g.config.cheese_payoff := hcfg.2.2.2.2.2.1
      have hcount : 0 ≤ g.count_cheeses.1 := (count_cheeses_nonneg g).1
      exact add_nonneg hm (mul_nonneg hcount hpay)
  | publish_recipe =>
    simp only [CroissantGame.step, CroissantGame.apply_action,
      CroissantGame.execute_publish_recipe]
    split_ifs with hgo hcost
    · exact ⟨hcfg, hm, hr, hc⟩
    · exact ⟨hcfg, hm, hr, hc⟩
    · refine end_turn_money_inv _ ⟨hcfg, ?_, by dsimp only; omega, hc⟩
      simp only [not_lt] at hcost
      dsimp only
      omega
  | publish_cookbook =>
    simp only [CroissantGame.step, CroissantGame.apply_action,
      CroissantGame.execute_publish_cookbook]
    split_ifs with hgo hcost
    · exact ⟨hcfg, hm, hr, hc⟩
    · exact ⟨hcfg, hm, hr, hc⟩
    · refine end_turn_money_inv _ ⟨hcfg, ?_, hr, by dsimp only; omega⟩
      simp only [not_lt] at hcost
      dsimp only
      omega
  | buy_croissants q =>
    simp only [CroissantGame.step, CroissantGame.apply_action,
      CroissantGame.execute_buy_croissants]
    split_ifs with hgo hq hcap hcost
    · exact ⟨hcfg, hm, hr, hc⟩
    · exact ⟨hcfg, hm, hr, hc⟩
    · exact ⟨hcfg, hm, hr, hc⟩
    · exact ⟨hcfg, hm, hr, hc⟩
    · refine end_turn_money_inv _ ⟨hcfg, ?_, hr, hc⟩
      simp only [not_lt] at hcost
      dsimp only
      omega

theorem run_money_inv (g : CroissantGame) (acts : List GameAction) (hg : MoneyInv g) :
    MoneyInv (g.run acts) := by
  induction acts generalizing g with
  | nil => exact hg
  | cons a rest ih => exact ih (g.step a) (step_money_inv g a hg)

/-- C1: starting from a fresh game over a configuration whose numeric
fields are all non-negative, the money balance is non-negative after
every sequence of action calls (each spend path checks affordability
before debiting, so no action drives money below zero). -/
theorem money_never_negative (cfg : CroissantGameConfig) (hcfg : cfg.NonNeg)
    (acts : List GameAction) : 0 ≤ ((CroissantGame.new cfg).run acts).money :=
  (run_money_inv (CroissantGame.new cfg) acts
    ⟨hcfg, hcfg.2.1, le_refl 0, le_refl 0⟩).2.1

theorem money_never_negative_witness :
    0 ≤ ((CroissantGame.new cfgRecipe).run
      [.publish_recipe, .buy_cheese 2, .sell_cheese, .cook, .buy_croissants 1]).money :=
  money_never_negative cfgRecipe (by decide) _

/-- C3 counterexample: with recipe cost 200, dividend 10 and starting money
200, a successful `execute_publish_recipe` leaves money at 10 — not 0 —
immediately after the action completes, because the action's own shared
turn-advancement already credits the dividend of the just-published recipe. -/
theorem publish_recipe_money_counterexample :
    ((CroissantGame.new cfgRecipe).execute_publish_recipe).1 = Except.ok ()
    ∧ ((CroissantGame.new cfgRecipe).execute_publish_recipe).2.money = 10
    ∧ ¬ ((CroissantGame.new cfgRecipe).execute_publish_recipe).2.money = 0 := by
  decide

/-- C3 (amended): with recipe cost 200, dividend 10 and starting money 200,
a successful `execute_publish_recipe` debits money to exactly 0 and then
performs its own turn-advancement, which already credits +10, so money is
exactly 10 immediately after the action completes; the next
turn-advancement credits a further +10. -/
theorem publish_recipe_money (cfg : CroissantGameConfig)
    (h1 : cfg.recipe_cost = 200) (h2 : cfg.recipe_dividend = 10)
    (h3 : cfg.starting_money = 200) (h4 : 1 ≤ cfg.turns) :
    (CroissantGame.new cfg).execute_publish_recipe
      = (Except.ok (), CroissantGame.end_turn
          { CroissantGame.new cfg with money := 0, recipes := 1 })
    ∧ ((CroissantGame.new cfg).execute_publish_recipe).2.money = 10
    ∧ (CroissantGame.end_turn ((CroissantGame.new cfg).execute_publish_recipe).2).money
        = ((CroissantGame.new cfg).execute_publish_recipe).2.money + 10 := by
  have hgo : (CroissantGame.new cfg).is_game_over = false := by
    simp only [CroissantGame.is_game_over, CroissantGame.new, decide_eq_false_iff_not, not_lt]
    omega
  have hcost : ¬ (cfg.recipe_cost > (CroissantGame.new cfg).money) := by
    simp [CroissantGame.new, h1, h3]
  have heq : (CroissantGame.new cfg).execute_publish_recipe
      = (Except.ok (), CroissantGame.end_turn
          { CroissantGame.new cfg with money := 0, recipes := 1 }) := by
    simp only [CroissantGame.execute_publish_recipe, hgo, Bool.false_eq_true, if_false,
      if_neg hcost]
    simp [CroissantGame.new, h1, h3]
  refine ⟨heq, ?_, ?_⟩
  · rw [heq]
    simp [CroissantGame.end_turn, CroissantGame.new, h2]
  · rw [heq]
    simp [CroissantGame.end_turn, CroissantGame.new, h2]

theorem publish_recipe_money_witness :
    ((CroissantGame.new cfgRecipe).execute_publish_recipe).2.money = 10 :=
  (publish_recipe_money cfgRecipe rfl rfl rfl (by decide)).2.1

/-- C4 counterexample: with maturation threshold 1 (a non-negative
configuration), buying one cheese in a fresh game yields, immediately
after the action completes, one mature and zero non-mature cheeses — the
action's own turn-advancement has already aged the new cheese to 1 — so
the non-mature count does not grow by the purchased quantity and the
mature count does not stay unchanged. -/
theorem buy_cheese_counts_counterexample :
    ((CroissantGame.new cfgRecipe).execute_buy_cheese 1).1 = Except.ok ()
    ∧ ((CroissantGame.new cfgRecipe).execute_buy_cheese 1).2.count_cheeses
        ≠ ((CroissantGame.new cfgRecipe).count_cheeses.1,
           (CroissantGame.new cfgRecipe).count_cheeses.2 + 1) := by
  decide

/-- C4 (amended): a successful `execute_buy_cheese q` (with threshold at
least 1) debits the total cost and appends `q` cheeses at age 0; measured
on that intermediate state — immediately after the purchase and before the
shared turn-advancement that completes the action — the non-mature count
grows by exactly `q` and the mature count is unchanged. The completed
action additionally ages every cheese (old and new) by +1. -/
theorem buy_cheese_counts (g : CroissantGame) (q : Nat)
    (hgo : g.is_game_over = false) (hq : q ≠ 0)
    (hcap : q ≤ g.config.cheese_quantity_maximum)
    (hmoney : g.config.cheese_cost * q ≤ g.money)
    (hmature : 1 ≤ g.config.cheese_mature_turns) :
    g.execute_buy_cheese q
      = (Except.ok (), CroissantGame.end_turn
          { g with money := g.money - g.config.cheese_cost * q
                   cheeses := g.cheeses ++ List.replicate q 0 })
    ∧ ({ g with money := g.money - g.config.cheese_cost * q
                cheeses := g.cheeses ++ List.replicate q 0 } :
          CroissantGame).count_cheeses.1 = g.count_cheeses.1
    ∧ ({ g with money := g.money - g.config.cheese_cost * q
                cheeses := g.cheeses ++ List.replicate q 0 } :
          CroissantGame).count_cheeses.2 = g.count_cheeses.2 + q := by
  refine ⟨?_, ?_, ?_⟩
  · simp only [CroissantGame.execute_buy_cheese, hgo, Bool.false_eq_true, if_false,
      if_neg hq, if_neg (not_lt.mpr hcap), if_neg (not_lt.mpr hmoney)]
  · rw [count_cheeses_eq, count_cheeses_eq]
    simp only [List.countP_append, List.countP_replicate]
    have : ¬ (g.config.cheese_mature_turns ≤ (0 : Int)) := by omega
    simp [this]
  · rw [count_cheeses_eq, count_cheeses_eq]
    simp only [List.countP_append, List.countP_replicate]
    have : (0 : Int) < g.config.cheese_mature_turns := by omega
    simp [this]

theorem buy_cheese_counts_witness :
    ({ CroissantGame.new cfgRecipe with
        money := (CroissantGame.new cfgRecipe).money
          - (CroissantGame.new cfgRecipe).config.cheese_cost * 2
        cheeses := (CroissantGame.new cfgRecipe).cheeses ++ List.replicate 2 0 } :
      CroissantGame).count_cheeses.2 = (CroissantGame.new cfgRecipe).count_cheeses.2 + 2 :=
  (buy_cheese_counts (CroissantGame.new cfgRecipe) 2 (by decide) (by decide)
    (by decide) (by decide) (by decide)).2.2

/-- The money balance right after an accepted action's own effect, before
the shared turn-advancement. -/
def effect_money (g : CroissantGame) : GameAction → Int
  | .cook => g.money + g.config.cook_payoff
  | .buy_cheese q => g.money - g.config.cheese_cost * q
  | .sell_cheese => g.money + g.count_cheeses.1 * g.config.cheese_payoff
  | .publish_recipe => g.money - g.config.recipe_cost
  | .publish_cookbook => g.money - g.config.cookbook_cost
  | .buy_croissants q => g.money - g.croissant_price * q

/-- The cheese multiset right after an accepted action's own effect, before
the shared turn-advancement. -/
def effect_cheeses (g : CroissantGame) : GameAction → List Int
  | .buy_cheese q => g.cheeses ++ List.replicate q 0
  | .sell_cheese => g.cheeses.filter (fun age => age < g.config.cheese_mature_turns)
  | _ => g.cheeses

/-- C5: every accepted action performs the shared turn-advancement exactly
once — the turn grows by exactly 1, every cheese age grows by exactly 1,
and money is credited exactly `recipes * recipe_dividend + cookbooks *
cookbook_dividend` on top of the action's own effect — and a rejected
action does not perform it (the whole state is unchanged). -/
theorem end_turn_exactly_once (g : CroissantGame) (a : GameAction) :
    ((g.apply_action a).1 = Except.ok () →
      (g.step a).turn = g.turn + 1
      ∧ (g.step a).cheeses = (effect_cheeses g a).map (fun age => age + 1)
      ∧ (g.step a).money = effect_money g a
          + g.config.recipe_dividend * (g.step a).recipes
          + g.config.cookbook_dividend * (g.step a).cookbooks)
    ∧ (∀ e, (g.apply_action a).1 = Except.error e → g.step a = g) := by
  constructor
  · intro hok
    cases a <;>
      simp only [CroissantGame.step, CroissantGame.apply_action, CroissantGame.execute_cook,
        CroissantGame.execute_buy_cheese, CroissantGame.execute_sell_cheese,
        CroissantGame.execute_publish_recipe, CroissantGame.execute_publish_cookbook,
        CroissantGame.execute_buy_croissants, effect_money, effect_cheeses] at hok ⊢ <;>
      split_ifs at hok ⊢ <;>
      simp_all [CroissantGame.end_turn]
  · intro e herr
    exact reject_frame g a e herr

theorem end_turn_exactly_once_witness :
    ((CroissantGame.new cfgRecipe).step .cook).turn = (CroissantGame.new cfgRecipe).turn + 1 :=
  ((end_turn_exactly_once (CroissantGame.new cfgRecipe) .cook).1 (by decide)).1

/-- C7: when the game is not over, `execute_sell_cheese` succeeds exactly
when some cheese has reached the maturation threshold: it then credits
`mature_count * cheese_payoff` and retains only the non-mature cheeses
(both measured before the shared turn-advancement); with no mature cheese
it is rejected with `NoCheeseToSell` and the state is unchanged. -/
theorem sell_cheese_spec (g : CroissantGame) (hgo : g.is_game_over = false) :
    ((∃ age ∈ g.cheeses, g.config.cheese_mature_turns ≤ age) →
      g.execute_sell_cheese
        = (Except.ok (), CroissantGame.end_turn
            { g with money := g.money + g.count_cheeses.1 * g.config.cheese_payoff
                     cheeses := g.cheeses.filter
                       (fun age => age < g.config.cheese_mature_turns) }))
    ∧ ((∀ age ∈ g.cheeses, age < g.config.cheese_mature_turns) →
      g.execute_sell_cheese = (Except.error ⟨.NoCheeseToSell⟩, g)) := by
  constructor
  · intro hex
    have hne : ¬ (g.count_cheeses.1 = 0) := by
      rw [mature_count_eq_zero_iff]
      push_neg
      obtain ⟨age, hmem, hage⟩ := hex
      exact ⟨age, hmem, hage⟩
    simp only [CroissantGame.execute_sell_cheese, hgo, Bool.false_eq_true, if_false,
      if_neg hne]
  · intro hall
    have hz : g.count_cheeses.1 = 0 := (mature_count_eq_zero_iff g).mpr hall
    simp only [CroissantGame.execute_sell_cheese, hgo, Bool.false_eq_true, if_false,
      if_pos hz]

theorem sell_cheese_spec_witness :
    gCheese.execute_sell_cheese
      = (Except.ok (), CroissantGame.end_turn
          { gCheese with
              money := gCheese.money + gCheese.count_cheeses.1 * gCheese.config.cheese_payoff
              cheeses := gCheese.cheeses.filter
                (fun age => age < gCheese.config.cheese_mature_turns) }) :=
  (sell_cheese_spec gCheese (by decide)).1 (by decide)

/-- C8: for the two quantity-bearing actions the rejection is chosen by
checks in the fixed order game-over, zero quantity, quantity cap,
affordability — each failing check short-circuits the later ones, the
cap errors carry the configured cap, the affordability error carries the
total cost, and when all checks pass the action is accepted. -/
theorem buy_error_order (g : CroissantGame) (q : Nat) :
    (g.is_game_over = true →
      (g.execute_buy_cheese q).1 = Except.error ⟨.GameOver⟩
      ∧ (g.execute_buy_croissants q).1 = Except.error ⟨.GameOver⟩)
    ∧ (g.is_game_over = false → q = 0 →
      (g.execute_buy_cheese q).1 = Except.error ⟨.InvalidQuantity⟩
      ∧ (g.execute_buy_croissants q).1 = Except.error ⟨.InvalidQuantity⟩)
    ∧ (g.is_game_over = false → q ≠ 0 → g.config.cheese_quantity_maximum < q →
      (g.execute_buy_cheese q).1
        = Except.error ⟨.CheeseMaxQuantityExceeded g.config.cheese_quantity_maximum⟩)
    ∧ (g.is_game_over = false → q ≠ 0 → q ≤ g.config.cheese_quantity_maximum →
      g.money < g.config.cheese_cost * q →
      (g.execute_buy_cheese q).1
        = Except.error ⟨.NotEnoughMoney (g.config.cheese_cost * q)⟩)
    ∧ (g.is_game_over = false → q ≠ 0 → g.config.croissant_quantity_maximum < q →
      (g.execute_buy_croissants q).1
        = Except.error ⟨.CroissantMaxQuantityExceeded g.config.croissant_quantity_maximum⟩)
    ∧ (g.is_game_over = false → q ≠ 0 → q ≤ g.config.croissant_quantity_maximum →
      g.money < g.croissant_price * q →
      (g.execute_buy_croissants q).1
        = Except.error ⟨.NotEnoughMoney (g.croissant_price * q)⟩)
    ∧ (g.is_game_over = false → q ≠ 0 → q ≤ g.config.cheese_quantity_maximum →
      g.config.cheese_cost * q ≤ g.money →
      (g.execute_buy_cheese q).1 = Except.ok ())
    ∧ (g.is_game_over = false → q ≠ 0 → q ≤ g.config.croissant_quantity_maximum →
      g.croissant_price * q ≤ g.money →
      (g.execute_buy_croissants q).1 = Except.ok ()) := by
  refine ⟨?_, ?_, ?_, ?_, ?_, ?_, ?_, ?_⟩
  · intro h
    constructor <;>
      simp [CroissantGame.execute_buy_cheese, CroissantGame.execute_buy_croissants, h]
  · intro h hq
    constructor <;>
      simp [CroissantGame.execute_buy_cheese, CroissantGame.execute_buy_croissants, h, hq]
  · intro h hq hcap
    simp [CroissantGame.execute_buy_cheese, h, hq, hcap]
  · intro h hq hcap hm
    simp [CroissantGame.execute_buy_cheese, h, hq, not_lt.mpr hcap, hm]
  · intro h hq hcap
    simp [CroissantGame.execute_buy_croissants, h, hq, hcap]
  · intro h hq hcap hm
    simp [CroissantGame.execute_buy_croissants, h, hq, not_lt.mpr hcap, hm]
  · intro h hq hcap hm
    simp [CroissantGame.execute_buy_cheese, h, hq, not_lt.mpr hcap, not_lt.mpr hm]
  · intro h hq hcap hm
    simp [CroissantGame.execute_buy_croissants, h, hq, not_lt.mpr hcap, not_lt.mpr hm]

theorem buy_error_order_witness :
    ((CroissantGame.new cfgZeroTurns).execute_buy_cheese 0).1 = Except.error ⟨.GameOver⟩ :=
  ((buy_error_order (CroissantGame.new cfgZeroTurns) 0).1 (by decide)).1

/-- C10: `croissant_price` is a frame field — every action call (accepted
or rejected) preserves it along with the configuration, so after any
sequence of actions on a fresh game it still equals the configured
`croissant_starting_price` and `execute_buy_croissants` always charges the
starting price per unit. -/
theorem croissant_price_constant (cfg : CroissantGameConfig) (acts : List GameAction)
    (g : CroissantGame) (a : GameAction) :
    (g.step a).croissant_price = g.croissant_price
    ∧ (g.step a).config = g.config
    ∧ ((CroissantGame.new cfg).run acts).croissant_price = cfg.croissant_starting_price
    ∧ ((CroissantGame.new cfg).run acts).config = cfg := by
  have hstep : ∀ (g' : CroissantGame) (a' : GameAction),
      (g'.step a').croissant_price = g'.croissant_price ∧ (g'.step a').config = g'.config := by
    intro g' a'
    cases a' <;>
      simp only [CroissantGame.step, CroissantGame.apply_action, CroissantGame.execute_cook,
        CroissantGame.execute_buy_cheese, CroissantGame.execute_sell_cheese,
        CroissantGame.execute_publish_recipe, CroissantGame.execute_publish_cookbook,
        CroissantGame.execute_buy_croissants] <;>
      split_ifs <;> simp [CroissantGame.end_turn]
  have hrun : ∀ (acts' : List GameAction) (g' : CroissantGame),
      (g'.run acts').croissant_price = g'.croissant_price
      ∧ (g'.run acts').config = g'.config := by
    intro acts'
    induction acts' with
    | nil => intro g'; exact ⟨rfl, rfl⟩
    | cons a' rest ih =>
      intro g'
      have h1 := hstep g' a'
      have h2 := ih (g'.step a')
      exact ⟨by rw [CroissantGame.run, List.foldl_cons, ← CroissantGame.run] at *
                exact h2.1.trans h1.1,
             by rw [CroissantGame.run, List.foldl_cons, ← CroissantGame.run] at *
                exact h2.2.trans h1.2⟩
  exact ⟨(hstep g a).1, (hstep g a).2, (hrun acts _).1, (hrun acts _).2⟩

/-- The spec's rendering of a money value: the whole-currency part, a dot,
and the minor-unit part (value modulo 100) zero-padded to two digits. -/
def format_money_spec (raw_money : Int) : String :=
  "$" ++ toString (Int.tdiv raw_money 100) ++ "." ++ pad_zeros 2 (toString (Int.tmod raw_money 100))

theorem pad_zeros_length (s : String) (h : s.length ≤ 2) : (pad_zeros 2 s).length = 2 := by
  simp only [pad_zeros, String.length_append, String.length_mk, List.length_replicate]
  omega

theorem toString_int_nonneg (n : Int) (h : 0 ≤ n) : toString n = Nat.repr n.toNat := by
  obtain ⟨k, rfl⟩ := Int.eq_ofNat_of_zero_le h
  rfl

theorem nat_repr_length_le_two : ∀ k : Nat, k < 100 → (Nat.repr k).length ≤ 2 := by
  decide

theorem rust_zero_pad2_nonneg (n : Int) (h : 0 ≤ n) :
    rust_zero_pad2 n = pad_zeros 2 (toString n) := by
  simp [rust_zero_pad2, not_lt.mpr h]

/-- C9: for every non-negative money value (the only values the program
exposes for display), `format_money` renders the whole-currency part
(value divided by 100), a dot, and the minor-unit part (value modulo 100)
zero-padded to exactly two digits, and those minor units are exactly the
cents of the stored integer. -/
theorem format_money_correct (m : Int) (hm : 0 ≤ m) :
    format_money m = format_money_spec m
    ∧ (pad_zeros 2 (toString (Int.tmod m 100))).length = 2
    ∧ 100 * Int.tdiv m 100 + Int.tmod m 100 = m
    ∧ 0 ≤ Int.tmod m 100 ∧ Int.tmod m 100 < 100 := by
  have h0 : 0 ≤ Int.tmod m 100 := Int.tmod_nonneg 100 hm
  have h1 : Int.tmod m 100 < 100 := Int.tmod_lt_of_pos m (by norm_num)
  refine ⟨?_, ?_, Int.tdiv_add_tmod m 100, h0, h1⟩
  · unfold format_money format_money_spec
    rw [rust_zero_pad2_nonneg _ h0]
  · apply pad_zeros_length
    rw [toString_int_nonneg _ h0]
    apply nat_repr_length_le_two
    omega

theorem format_money_correct_witness :
    format_money 1234 = format_money_spec 1234 :=
  (format_money_correct 1234 (by decide)).1
